import Mathlib

/-!
# i2c-nunchuck: a shallow embedding of `i2c-nunchuck.c`

The development models the three parts of the driver the specification talks
about:

* the per-open client (`struct i2c_nunchuck_client`) with its two flags, its
  six byte sample buffer and its single threaded work queue, together with the
  work handler `read_job_handler` and the file operation `i2cnunchuck_wr_rd`;
* the file operation `i2cnunchuck_open_initialize` together with the kernel
  resources it acquires;
* the list `i2c_dev_list` with `i2c_dev_get_by_minor`, `get_free_i2c_dev`,
  `return_i2c_dev`, `i2cdev_attach_adapter` and `i2cdev_detach_adapter`.

Calls into the kernel whose outcome the driver cannot control (bus transfers,
allocations, `queue_work`, `copy_to_user`, `device_create`, ...) appear as
explicit outcome parameters of the embedded functions.

The functions of the driver are embedded twice: as sequential functions, which
say what one call does when nothing interrupts it, and as the events of a
machine (`step`) whose atomic steps are the critical sections under the spin
lock and the single unlocked accesses in between, so that read calls and the
worker thread interleave as they do in the kernel.
-/

namespace Nunchuck

/-! ## Constants -/

/-- Sample size, `#define MAX_BYTES 6`. -/
def MAX_BYTES : Nat := 6

/-- Number of minors, `#define I2C_MINORS 256`. -/
def I2C_MINORS : Nat := 256

/-- Name of the only adapter the driver binds to, `#define ADAPTER_NAME`. -/
def ADAPTER_NAME : String := "SMBus I801 adapter at 0400"

/-- Linux errno `EFAULT` (bad address); the driver returns `-EFAULT`. -/
def EFAULT : Int := 14

/-- Linux errno `ENOMEM` (out of memory); the driver returns `-ENOMEM`. -/
def ENOMEM : Int := 12

/-- Linux errno `ENODEV` (no such device); the driver returns `-ENODEV`. -/
def ENODEV : Int := 19

/-! ## The client and its sample buffer -/

/-- One `unsigned char`. -/
abbrev Byte := Fin 256

/-- The array `unsigned char data_buffer[MAX_BYTES]`: exactly six bytes. -/
structure DataBuffer where
  bytes : List Byte
  len : bytes.length = MAX_BYTES

/-- The buffer after `memset(&data_buffer, 0, MAX_BYTES)`. -/
def DataBuffer.zero : DataBuffer := ⟨List.replicate MAX_BYTES 0, by simp⟩

/-- The assignment `data_buffer[i] = b`. -/
def DataBuffer.set (buf : DataBuffer) (i : Nat) (b : Byte) : DataBuffer :=
  ⟨buf.bytes.set i b, by simp [buf.len]⟩

/-- The state of the single threaded work queue `n_client->wq` as far as the
driver can observe it: the number of queued jobs the worker thread has not
started yet, and whether the worker thread is inside `read_job_handler`. -/
structure WorkQueue where
  pending : Nat
  running : Bool
deriving DecidableEq, Repr

/-- Jobs submitted to the queue and not yet completed. -/
def WorkQueue.outstanding (wq : WorkQueue) : Nat :=
  wq.pending + (if wq.running then 1 else 0)

/-- The fields of `struct i2c_nunchuck_client` the read path works on.  The two
`short` flags only ever hold 0 or 1 and are only tested for being zero. -/
structure Client where
  wq : WorkQueue
  processing : Bool
  data_ready : Bool
  data_buffer : DataBuffer

/-- The client as `i2cnunchuck_open_initialize` sets it up (lines 200-207): a
fresh empty work queue, both flags 0, the buffer zeroed. -/
def Client.fresh : Client :=
  { wq := ⟨0, false⟩, processing := false, data_ready := false,
    data_buffer := DataBuffer.zero }

/-! ## The work handler `read_job_handler` -/

/-- First critical section of `read_job_handler` (lines 143-146). -/
def read_job_begin (c : Client) : Client :=
  { c with processing := true, data_ready := false }

/-- The `do ... while (count < MAX_BYTES)` loop of `read_job_handler`
(lines 148-157).  `bus k` is the outcome of the `k`-th single byte transfer of
this job: `none` when `i2c_smbus_xfer` returns a negative value, `some b` when
it succeeds and delivers `b`.  Every successful transfer increments `count`, so
the transfer made while `count = k` is the `k`-th one.  The result is
`(res >= 0, count, buffer)` when the loop is left; the first argument bounds
the number of iterations and `none` means that this bound was too small. -/
def gather_loop (bus : Nat → Option Byte) : Nat → Nat → DataBuffer →
    Option (Bool × Nat × DataBuffer)
  | 0, _, _ => none
  | fuel + 1, count, buf =>
    match bus count with
    | none => some (false, count, buf)
    | some b =>
      let buf := buf.set count b
      let count := count + 1
      if count < MAX_BYTES then gather_loop bus fuel count buf
      else some (true, count, buf)

/-- The loop and the second critical section of `read_job_handler`
(lines 148-165). -/
def read_job_finish (c : Client) (bus : Nat → Option Byte) : Option Client :=
  match gather_loop bus MAX_BYTES 0 c.data_buffer with
  | none => none
  | some (ok, _, buf) =>
    some { c with data_buffer := buf, processing := false,
                  data_ready := if ok then true else false }

/-- The whole of `read_job_handler` run without interruption. -/
def read_job_handler (c : Client) (bus : Nat → Option Byte) : Option Client :=
  read_job_finish (read_job_begin c) bus

/-- Number of bus transfers `read_job_handler` makes. -/
def transfers (c : Client) (bus : Nat → Option Byte) : Option Nat :=
  match gather_loop bus MAX_BYTES 0 c.data_buffer with
  | none => none
  | some (ok, count, _) => some (if ok then count else count + 1)

/-! ## The file operation `read` -/

/-- Outcome of `queue_work` on a freshly initialised work item: it returns 1
and the job is on the queue, or it returns 0 and nothing was queued. -/
def queue_work (wq : WorkQueue) (queued : Bool) : Int × WorkQueue :=
  if queued then (1, { wq with pending := wq.pending + 1 }) else (0, wq)

/-- What one call of `i2cnunchuck_wr_rd` produces: the return value, the bytes
`copy_to_user` stored in the caller's buffer (if it ran and succeeded), and
the client afterwards. -/
structure ReadResult where
  ret : Int
  user_buf : Option (List Byte)
  client : Client

/-- The locked section of `i2cnunchuck_wr_rd` (lines 250-267): computes `res`
and possibly queues the job. -/
def wr_rd_locked (c : Client) (queued : Bool) : Int × Client :=
  if !c.data_ready then
    if !c.processing then
      let r := queue_work c.wq queued
      (if r.1 = 1 then -2 else r.1, { c with wq := r.2 })
    else (-1, c)
  else ((MAX_BYTES : Int), c)

/-- The statement `copy_to_user(buf, &data_buffer, MAX_BYTES)` with the
assignment of `res` around it (lines 278-279), made on the client as it is
when the call gets there: the return value and the bytes handed to the caller.
`copy_ok` tells whether `copy_to_user` copies everything. -/
def wr_rd_copy (c : Client) (copy_ok : Bool) : Int × Option (List Byte) :=
  if copy_ok then ((MAX_BYTES : Int), some c.data_buffer.bytes)
  else (-EFAULT, none)

/-- The unlocked assignment `n_client->data_ready = 0` (line 280). -/
def wr_rd_clear (c : Client) : Client :=
  { c with data_ready := false }

/-- The part of `i2cnunchuck_wr_rd` up to the unlock (lines 235-267): the
priming write, the allocation of the job and the locked section.  The first
component is the value returned at lines 239 or 245, or else the value of `res`
at line 270.  `write_ok` tells whether the priming `i2c_smbus_xfer` write
succeeds, `alloc_ok` whether `kmalloc` returns a job and `queued` what
`queue_work` answers. -/
def wr_rd_enter (c : Client) (write_ok alloc_ok queued : Bool) : Int × Client :=
  if !write_ok then (-EFAULT, c)
  else if !alloc_ok then (-ENOMEM, c)
  else wr_rd_locked c queued

/-- The file operation `i2cnunchuck_wr_rd` (lines 227-283) as one call that
nothing interrupts: the lines after the unlock (275-281) then find the client
as the locked section left it.  What happens when the worker thread or another
call runs in between is described by `step`, which runs `wr_rd_enter`,
`wr_rd_copy` and `wr_rd_clear` as separate events. -/
def i2cnunchuck_wr_rd (c : Client) (write_ok alloc_ok queued copy_ok : Bool) :
    ReadResult :=
  if !write_ok then ⟨-EFAULT, none, c⟩
  else if !alloc_ok then ⟨-ENOMEM, none, c⟩
  else
    let r := wr_rd_locked c queued
    if r.1 = -1 then ⟨r.1, none, r.2⟩
    else if r.1 = (MAX_BYTES : Int) then
      ⟨(wr_rd_copy r.2 copy_ok).1, (wr_rd_copy r.2 copy_ok).2, wr_rd_clear r.2⟩
    else ⟨r.1, none, r.2⟩

/-! ## Interleavings of read calls and the worker thread

The spin lock makes the three critical sections (lines 143-146, 159-165 and
250-267) atomic.  Everything else runs unlocked: the worker thread stores each
byte of the sample as it arrives (line 155), and a read call copies the sample
out and clears `data_ready` after it has left the lock (lines 278 and 280).
The machine below has one event for each critical section and one for each of
these unlocked accesses. -/

/-- Where the worker thread is: not in `read_job_handler`; in it but before
the first critical section (lines 136-142); in the loop with the local
variable `count`, about to make a transfer (line 150); or past the loop with
`ok` telling whether `res >= 0`, before the second critical section
(line 159). -/
inductive Worker where
  | idle
  | entered
  | gather (count : Nat)
  | leaving (ok : Bool)
deriving DecidableEq, Repr

/-- One iteration of the loop (lines 150-157) with the outcome of its
transfer: where the worker thread is afterwards, and the buffer. -/
def xfer_step (count : Nat) (buf : DataBuffer) : Option Byte → Worker × DataBuffer
  | none => (.leaving false, buf)
  | some b =>
    let buf := buf.set count b
    let count := count + 1
    if count < MAX_BYTES then (.gather count, buf) else (.leaving true, buf)

/-- Second critical section of `read_job_handler` (lines 159-165). -/
def read_job_end (c : Client) (ok : Bool) : Client :=
  { c with processing := false, data_ready := if ok then true else false }

/-- One open session: the client structure, the position of the worker thread
of its work queue, the number of read calls that have left the lock with
`res == MAX_BYTES` and have not yet run `copy_to_user` (line 278), and the
number of read calls between `copy_to_user` and line 280. -/
structure Session where
  client : Client
  worker : Worker
  copying : Nat
  clearing : Nat

/-- The session right after open: the worker thread idle, no read call in
progress. -/
def Session.start (c : Client) : Session := ⟨c, .idle, 0, 0⟩

/-- What can happen to one session between open and release. -/
inductive Event where
  | read_enter (write_ok alloc_ok queued : Bool)
  | read_copy (copy_ok : Bool)
  | read_clear
  | worker_enter
  | worker_begin
  | worker_xfer (outcome : Option Byte)
  | worker_finish
deriving DecidableEq, Repr

/-- Tells the events of the worker thread from those of read calls. -/
def Event.isWorker : Event → Bool
  | .worker_enter | .worker_begin | .worker_xfer _ | .worker_finish => true
  | _ => false

/-- One event; `none` when it cannot happen in this state.

* `read_enter`: a read call runs up to its unlock (`wr_rd_enter`); it goes on
  to line 278 only when it got that far and found `res == MAX_BYTES`.
* `read_copy`: such a call runs `copy_to_user` on the buffer as it is now.
* `read_clear`: such a call runs line 280.
* `worker_enter`: the single worker thread takes the next queued job and
  enters `read_job_handler`; it runs one job at a time.
* `worker_begin`: lines 143-146.
* `worker_xfer`: one iteration of the loop, lines 150-157.
* `worker_finish`: lines 159-165 and the return of the handler.

`copy_to_user` is one event although it reads six bytes; what it delivers is
only stated for sessions in which the worker thread cannot run meanwhile, or
shown by example. -/
def step (s : Session) : Event → Option Session
  | .read_enter w a q =>
    let r := wr_rd_enter s.client w a q
    some { s with client := r.2,
                  copying := if r.1 = (MAX_BYTES : Int) then s.copying + 1
                             else s.copying }
  | .read_copy _ =>
    if s.copying = 0 then none
    else some { s with copying := s.copying - 1, clearing := s.clearing + 1 }
  | .read_clear =>
    if s.clearing = 0 then none
    else some { s with client := wr_rd_clear s.client, clearing := s.clearing - 1 }
  | .worker_enter =>
    if s.client.wq.pending = 0 ∨ s.worker ≠ .idle then none
    else some { s with client := { s.client with
                                   wq := ⟨s.client.wq.pending - 1, true⟩ },
                       worker := .entered }
  | .worker_begin =>
    match s.worker with
    | .entered => some { s with client := read_job_begin s.client, worker := .gather 0 }
    | _ => none
  | .worker_xfer o =>
    match s.worker with
    | .gather count =>
      let r := xfer_step count s.client.data_buffer o
      some { s with client := { s.client with data_buffer := r.2 }, worker := r.1 }
    | _ => none
  | .worker_finish =>
    match s.worker with
    | .leaving ok =>
      some { s with client := { read_job_end s.client ok with
                                wq := { s.client.wq with running := false } },
                    worker := .idle }
    | _ => none

/-- Runs a sequence of events; `none` when one of them cannot happen. -/
def run (s : Session) : List Event → Option Session
  | [] => some s
  | e :: es => (step s e).bind (fun t => run t es)

/-- The worker thread has run the first critical section of a job and not yet
the second one. -/
def Worker.gathering : Worker → Bool
  | .gather _ | .leaving _ => true
  | _ => false

/-- A complete sample `bs` waits in session `d`, and it reaches the next read
call if no other read call overlaps that call:

* `data_ready` is set, `processing` is clear and the buffer holds `bs`;
* nothing can happen in `d` but a read call entering, and one that returns
  before the test of `data_ready` leaves `d` as it is;
* a read call whose priming write and job allocation succeed finds
  `res == MAX_BYTES`; until it runs `copy_to_user` nothing can happen but
  another read call entering; its `copy_to_user`, when it succeeds, returns 6
  with exactly `bs`; until it runs line 280 again nothing can happen but
  another read call entering; and after line 280 `data_ready` is clear;
* the uninterrupted call `i2cnunchuck_wr_rd` gives the same result. -/
def ReadsBack (d : Session) (bs : List Byte) : Prop :=
  d.client.data_ready = true ∧ d.client.processing = false ∧
  d.client.data_buffer.bytes = bs ∧
  (∀ e, step d e ≠ none → ∃ w a q, e = .read_enter w a q) ∧
  (∀ a q, step d (.read_enter false a q) = some d) ∧
  (∀ q, step d (.read_enter true false q) = some d) ∧
  ∀ q, (wr_rd_enter d.client true true q).1 = 6 ∧
    ∃ d2, step d (.read_enter true true q) = some d2 ∧
      (∀ e, step d2 e ≠ none →
        (∃ w a q, e = .read_enter w a q) ∨ ∃ k, e = .read_copy k) ∧
      wr_rd_copy d2.client true = (6, some bs) ∧
      ∃ d3, step d2 (.read_copy true) = some d3 ∧
        (∀ e, step d3 e ≠ none →
          (∃ w a q, e = .read_enter w a q) ∨ e = .read_clear) ∧
        ∃ d4, step d3 .read_clear = some d4 ∧
          d4.client.data_ready = false ∧
          (i2cnunchuck_wr_rd d.client true true q true).ret = 6 ∧
          (i2cnunchuck_wr_rd d.client true true q true).user_buf = some bs ∧
          (i2cnunchuck_wr_rd d.client true true q true).client = d4.client

/-! ## The registry `i2c_dev_list` -/

/-- The fields of `struct i2c_adapter` the driver reads: the adapter number
`nr`, which the bus core assigns and which is never negative, and `name`. -/
structure I2cAdapter where
  nr : Nat
  name : String
deriving DecidableEq, Repr

/-- One `struct i2c_dev`: the adapter it stands for and, once `device_create`
has succeeded, the minor of the device registered with the driver core. -/
structure I2cDev where
  adap : I2cAdapter
  dev : Option Nat
deriving DecidableEq, Repr

/-- The list `i2c_dev_list`, head first.  A pointer to a node is modelled by
the position of the node in the list. -/
abbrev Registry := List I2cDev

/-- The function `i2c_dev_get_by_minor` (lines 49-62): the first node whose
adapter number is `index`, as its position together with its contents;
`none` is the `NULL` result. -/
def i2c_dev_get_by_minor : Registry → Nat → Option (Nat × I2cDev)
  | [], _ => none
  | d :: rest, index =>
    if d.adap.nr = index then some (0, d)
    else (i2c_dev_get_by_minor rest index).map (fun r => (r.1 + 1, r.2))

/-- The function `get_free_i2c_dev` (lines 65-84).  `alloc_ok` tells whether
`kzalloc` succeeds.  On success the new node is at the tail of the list. -/
def get_free_i2c_dev (reg : Registry) (adap : I2cAdapter) (alloc_ok : Bool) :
    Except Int (Registry × Nat) :=
  if adap.nr ≥ I2C_MINORS then .error (-ENODEV)
  else if !alloc_ok then .error (-ENOMEM)
  else .ok (reg ++ [⟨adap, none⟩], reg.length)

/-- The function `return_i2c_dev` (lines 86-92): unlinks the node at position
`p`. -/
def return_i2c_dev (reg : Registry) (p : Nat) : Registry :=
  reg.eraseIdx p

/-- The callback `i2cdev_attach_adapter` (lines 316-346).  `create_err` is
`none` when `device_create` returns a device and `some e` when it returns
`ERR_PTR(e)`; `file_res` is the result of `device_create_file`. -/
def i2cdev_attach_adapter (reg : Registry) (adap : I2cAdapter) (alloc_ok : Bool)
    (create_err : Option Int) (file_res : Int) : Int × Registry :=
  if adap.name ≠ ADAPTER_NAME then (0, reg)
  else
    match get_free_i2c_dev reg adap alloc_ok with
    | .error e => (e, reg)
    | .ok (reg1, p) =>
      match create_err with
      | some e => (e, return_i2c_dev reg1 p)
      | none =>
        let reg2 := reg1.set p ⟨adap, some adap.nr⟩
        if file_res ≠ 0 then (file_res, return_i2c_dev reg2 p)
        else (0, reg2)

/-- The callback `i2cdev_detach_adapter` (lines 348-362). -/
def i2cdev_detach_adapter (reg : Registry) (adap : I2cAdapter) : Int × Registry :=
  match i2c_dev_get_by_minor reg adap.nr with
  | none => (0, reg)
  | some (p, _) => (0, return_i2c_dev reg p)

/-- Attach and detach notifications delivered by the bus core. -/
inductive RegEvent where
  | attach (adap : I2cAdapter) (alloc_ok : Bool) (create_err : Option Int)
      (file_res : Int)
  | detach (adap : I2cAdapter)

/-- The registry after one notification. -/
def regStep (reg : Registry) : RegEvent → Registry
  | .attach a ok ce fr => (i2cdev_attach_adapter reg a ok ce fr).2
  | .detach a => (i2cdev_detach_adapter reg a).2

/-- The registry after a sequence of notifications. -/
def regRun (reg : Registry) : List RegEvent → Registry
  | [] => reg
  | e :: es => regRun (regStep reg e) es

/-- Tells whether in a sequence of notifications no adapter is attached while a
node with its number is already on the list. -/
def noReattach (reg : Registry) : List RegEvent → Bool
  | [] => true
  | .attach a ok ce fr :: es =>
    (i2c_dev_get_by_minor reg a.nr).isNone &&
      noReattach (regStep reg (.attach a ok ce fr)) es
  | .detach a :: es => noReattach (regStep reg (.detach a)) es

/-- At most one node per adapter number. -/
def UniqueNr (reg : Registry) : Prop := (reg.map (fun d => d.adap.nr)).Nodup

instance (reg : Registry) : Decidable (UniqueNr reg) := by
  unfold UniqueNr
  infer_instance

/-! ## The file operation `open` -/

/-- The kernel resources `open` and `release` acquire and give back: the
reference count of every adapter (by number) and the number of live work
queues. -/
structure Kernel where
  adap_refs : Nat → Nat
  workqueues : Nat

/-- What one call of `i2cnunchuck_open_initialize` produces: the return value,
the kernel resources afterwards and `file->private_data`. -/
structure OpenResult where
  ret : Int
  kernel : Kernel
  private_data : Option Client

/-- The file operation `i2cnunchuck_open_initialize` (lines 171-222).
`adap_ok` tells whether `i2c_get_adapter` finds the adapter (and then takes a
reference), `nclient_ok` and `client_ok` whether the two `kzalloc` calls
succeed, `wq_ok` whether `create_singlethread_workqueue` succeeds and
`write_ok` whether the priming `i2c_smbus_xfer` write succeeds.  The result is
`none` when the function dereferences a `NULL` pointer: line 189 stores into
`n_client` before line 190 tests it, and line 195 writes through
`n_client->client` untested. -/
def i2cnunchuck_open_initialize (reg : Registry) (k : Kernel) (minor : Nat)
    (adap_ok nclient_ok client_ok wq_ok write_ok : Bool) : Option OpenResult :=
  match i2c_dev_get_by_minor reg minor with
  | none => some ⟨-ENODEV, k, none⟩
  | some (_, d) =>
    if !adap_ok then some ⟨-ENODEV, k, none⟩
    else
      let k1 : Kernel :=
        { k with adap_refs := Function.update k.adap_refs d.adap.nr
                                (k.adap_refs d.adap.nr + 1) }
      if !nclient_ok then none
      else if !client_ok then none
      else if !wq_ok then some ⟨-ENOMEM, k1, none⟩
      else
        let k2 : Kernel := { k1 with workqueues := k1.workqueues + 1 }
        if !write_ok then some ⟨-EFAULT, k2, some Client.fresh⟩
        else some ⟨0, k2, some Client.fresh⟩

/-- The file operation `i2cnunchuck_release` (lines 286-297) on a client bound
to adapter number `nr`: `destroy_workqueue` and `i2c_put_adapter`. -/
def i2cnunchuck_release (k : Kernel) (nr : Nat) : Kernel :=
  { adap_refs := Function.update k.adap_refs nr (k.adap_refs nr - 1),
    workqueues := k.workqueues - 1 }

/-! ## Auxiliary predicates and concrete inputs -/

/-- The flag discipline every event preserves: `processing` is set exactly
between the two critical sections of the worker thread, and `data_ready` is
clear there. -/
def FlagsOk (s : Session) : Prop :=
  if s.worker.gathering then
    s.client.processing = true ∧ s.client.data_ready = false
  else s.client.processing = false

/-- The client after open, one read that queued a job, and the start of that
job by the worker thread. -/
def clientRunning : Client :=
  { wq := ⟨0, true⟩, processing := true, data_ready := false,
    data_buffer := DataBuffer.zero }

/-- The session in which the worker thread has just run the first critical
section of the first job. -/
def sessionGathering : Session := ⟨clientRunning, .gather 0, 0, 0⟩

/-- Two read calls right after open, each of which queues a job, and then the
first job run to its end with the sample 10, 20, 30, 40, 50, 1. -/
def twoJobsOneDone : List Event :=
  [.read_enter true true true, .read_enter true true true,
   .worker_enter, .worker_begin,
   .worker_xfer (some 10), .worker_xfer (some 20), .worker_xfer (some 30),
   .worker_xfer (some 40), .worker_xfer (some 50), .worker_xfer (some 1),
   .worker_finish]

/-- A second job run to its end with the sample 1, 2, 3, 4, 5, 6. -/
def secondJob : List Event :=
  [.worker_enter, .worker_begin,
   .worker_xfer (some 1), .worker_xfer (some 2), .worker_xfer (some 3),
   .worker_xfer (some 4), .worker_xfer (some 5), .worker_xfer (some 6),
   .worker_finish]

/-- A read call leaves the lock, and before it copies the sample out the
worker thread starts the next job and stores its first two bytes 99, 98. -/
def overtakenRead : List Event :=
  [.read_enter true true true, .worker_enter, .worker_begin,
   .worker_xfer (some 99), .worker_xfer (some 98)]

/-- One read call after open and the job it queued, which fails at its third
transfer. -/
def failedJob : List Event :=
  [.read_enter true true true, .worker_enter, .worker_begin,
   .worker_xfer (some 7), .worker_xfer (some 8), .worker_xfer none,
   .worker_finish]

/-- The session after `failedJob`. -/
def sessionAfterFailure : Session :=
  ⟨{ wq := ⟨0, false⟩, processing := false, data_ready := false,
     data_buffer := ⟨[7, 8, 0, 0, 0, 0], rfl⟩ }, .idle, 0, 0⟩

/-- After `failedJob`: two read calls, each of which queues a job, and the
first of these jobs run to its end with the sample 10, 20, 30, 40, 50, 1. -/
def retryTwice : List Event :=
  failedJob ++ twoJobsOneDone

/-- The sample 10, 20, 30, 40, 50, 1 gathered while a read call is refused,
and the end of the job. -/
def sampleRun : List Event :=
  [.worker_xfer (some 10), .worker_xfer (some 20), .read_enter true true true,
   .worker_xfer (some 30), .worker_xfer (some 40), .worker_xfer (some 50),
   .worker_xfer (some 1)]

/-- The session after `sampleRun` and the end of the job, started in
`sessionGathering`. -/
def sessionSampled : Session :=
  ⟨{ wq := ⟨0, false⟩, processing := false, data_ready := true,
     data_buffer := ⟨[10, 20, 30, 40, 50, 1], rfl⟩ }, .idle, 0, 0⟩

/-- The session in which the first job is in its loop after two transfers. -/
def sessionMidJob : Session :=
  ⟨{ wq := ⟨0, true⟩, processing := true, data_ready := false,
     data_buffer := ⟨[7, 8, 0, 0, 0, 0], rfl⟩ }, .gather 2, 0, 0⟩

/-- The session after `failedJob` and one more read call, which queued a
job. -/
def sessionRetry : Session :=
  ⟨{ wq := ⟨1, false⟩, processing := false, data_ready := false,
     data_buffer := ⟨[7, 8, 0, 0, 0, 0], rfl⟩ }, .idle, 0, 0⟩

/-- The job queued by the retry, run with the sample 10, 20, 30, 40, 50, 1. -/
def retryRun : List Event :=
  [.worker_enter, .worker_begin,
   .worker_xfer (some 10), .worker_xfer (some 20), .worker_xfer (some 30),
   .worker_xfer (some 40), .worker_xfer (some 50), .worker_xfer (some 1)]

/-- The adapter the driver binds to, with adapter number 0. -/
def nunchuckAdapter : I2cAdapter := ⟨0, ADAPTER_NAME⟩

/-- Kernel resources before any open: no reference held, no work queue. -/
def kernelIdle : Kernel := ⟨fun _ => 0, 0⟩

/-- The list after adapter 0 has been attached. -/
def registryOne : Registry := [⟨nunchuckAdapter, some 0⟩]

/-- The outcome of a successful open of minor 0 on `registryOne`. -/
def openedOnce : OpenResult :=
  ⟨0, ⟨Function.update kernelIdle.adap_refs 0 (kernelIdle.adap_refs 0 + 1),
    kernelIdle.workqueues + 1⟩, some Client.fresh⟩

/-! ## Lemmas on the gather loop -/

/-- With enough iterations allowed the loop is left, with `res >= 0` exactly
when every remaining transfer succeeds, and otherwise at the first transfer
that fails. -/
theorem gather_loop_spec (bus : Nat → Option Byte) :
    ∀ (fuel count : Nat) (buf : DataBuffer), count < MAX_BYTES →
      MAX_BYTES ≤ count + fuel →
      ∃ ok n buf1, gather_loop bus fuel count buf = some (ok, n, buf1) ∧
        (ok = true → n = MAX_BYTES ∧
          ∀ i, count ≤ i → i < MAX_BYTES → (bus i).isSome = true) ∧
        (ok = false → count ≤ n ∧ n < MAX_BYTES ∧ bus n = none ∧
          ∀ i, count ≤ i → i < n → (bus i).isSome = true) := by
  intro fuel
  induction fuel with
  | zero => intro count buf h1 h2; omega
  | succ fuel ih =>
    intro count buf h1 h2
    cases hb : bus count with
    | none =>
      refine ⟨false, count, buf, by simp [gather_loop, hb], by simp, ?_⟩
      intro _
      exact ⟨le_refl _, h1, hb, fun i hi hi2 => by omega⟩
    | some b =>
      by_cases hc : count + 1 < MAX_BYTES
      · obtain ⟨ok, n, buf1, hg, hok, hfail⟩ :=
          ih (count + 1) (buf.set count b) hc (by omega)
        refine ⟨ok, n, buf1, by simp [gather_loop, hb, hc, hg], ?_, ?_⟩
        · intro h
          refine ⟨(hok h).1, fun i hi hi2 => ?_⟩
          rcases Nat.eq_or_lt_of_le hi with h3 | h3
          · subst h3; simp [hb]
          · exact (hok h).2 i h3 hi2
        · intro h
          obtain ⟨q1, q2, q3, q4⟩ := hfail h
          refine ⟨by omega, q2, q3, fun i hi hi2 => ?_⟩
          rcases Nat.eq_or_lt_of_le hi with h3 | h3
          · subst h3; simp [hb]
          · exact q4 i h3 hi2
      · refine ⟨true, count + 1, buf.set count b,
          by simp [gather_loop, hb, hc], ?_, by simp⟩
        intro _
        refine ⟨by omega, fun i hi hi2 => ?_⟩
        have : i = count := by omega
        subst this; simp [hb]

/-! ## Lemmas on the session machine -/

theorem wr_rd_enter_keeps (c : Client) (w a q : Bool) :
    (wr_rd_enter c w a q).2.processing = c.processing ∧
    (wr_rd_enter c w a q).2.data_ready = c.data_ready ∧
    (wr_rd_enter c w a q).2.data_buffer = c.data_buffer ∧
    (wr_rd_enter c w a q).2.wq.running = c.wq.running := by
  obtain ⟨⟨pend, r⟩, p, d, buf⟩ := c
  cases w <;> cases a <;> cases q <;> cases p <;> cases d <;>
    simp [wr_rd_enter, wr_rd_locked, queue_work]

theorem step_preserves_FlagsOk (s t : Session) (e : Event) (h : FlagsOk s)
    (hs : step s e = some t) : FlagsOk t := by
  obtain ⟨c, wk, cp, cl⟩ := s
  unfold FlagsOk at h ⊢
  cases e with
  | read_enter w a q =>
    simp only [step, Option.some.injEq] at hs
    subst hs
    obtain ⟨h1, h2, -, -⟩ := wr_rd_enter_keeps c w a q
    simp only [h1, h2]
    exact h
  | read_copy k =>
    simp only [step] at hs
    split at hs
    · exact absurd hs (by simp)
    · simp only [Option.some.injEq] at hs
      subst hs
      exact h
  | read_clear =>
    simp only [step] at hs
    split at hs
    · exact absurd hs (by simp)
    · simp only [Option.some.injEq] at hs
      subst hs
      cases hg : wk.gathering <;> simp_all [wr_rd_clear]
  | worker_enter =>
    simp only [step] at hs
    split at hs
    · exact absurd hs (by simp)
    · rename_i hne
      simp only [Option.some.injEq] at hs
      subst hs
      simp only [not_or, ne_eq, not_not] at hne
      obtain ⟨-, hw⟩ := hne
      have hw2 : wk = Worker.idle := hw
      subst hw2
      simpa [Worker.gathering] using h
  | worker_begin =>
    cases wk <;> simp [step] at hs
    subst hs
    simp [Worker.gathering, read_job_begin]
  | worker_xfer o =>
    cases wk <;> simp [step] at hs
    subst hs
    rename_i count
    cases o with
    | none => simpa [xfer_step, Worker.gathering] using h
    | some b =>
      by_cases hc : count + 1 < MAX_BYTES
      · simpa [xfer_step, Worker.gathering, hc] using h
      · simpa [xfer_step, Worker.gathering, hc] using h
  | worker_finish =>
    cases wk <;> simp [step] at hs
    subst hs
    simp [Worker.gathering, read_job_end]

theorem run_preserves_FlagsOk (es : List Event) :
    ∀ (s t : Session), FlagsOk s → run s es = some t → FlagsOk t := by
  induction es with
  | nil =>
    intro s t h hr
    simp only [run, Option.some.injEq] at hr
    subst hr
    exact h
  | cons e es ih =>
    intro s t h hr
    simp only [run] at hr
    cases hs : step s e with
    | none => simp [hs] at hr
    | some s1 =>
      simp only [hs, Option.some_bind] at hr
      exact ih s1 t (step_preserves_FlagsOk s s1 e h hs) hr

theorem start_FlagsOk : FlagsOk (Session.start Client.fresh) := by
  simp [FlagsOk, Session.start, Client.fresh, Worker.gathering]

theorem run_append (l1 : List Event) :
    ∀ (s : Session) (l2 : List Event),
      run s (l1 ++ l2) = (run s l1).bind (fun t => run t l2) := by
  induction l1 with
  | nil => intro s l2; simp [run]
  | cons e l1 ih =>
    intro s l2
    simp only [List.cons_append, run]
    cases hs : step s e with
    | none => simp
    | some t => simp [ih]

/-- Read calls neither move the worker thread nor touch the sample buffer. -/
theorem step_read_keeps (s t : Session) (e : Event) (he : e.isWorker = false)
    (hs : step s e = some t) :
    t.worker = s.worker ∧ t.client.data_buffer = s.client.data_buffer := by
  obtain ⟨c, wk, cp, cl⟩ := s
  cases e with
  | read_enter w a q =>
    simp only [step, Option.some.injEq] at hs
    subst hs
    exact ⟨rfl, (wr_rd_enter_keeps c w a q).2.2.1⟩
  | read_copy k =>
    simp only [step] at hs
    split at hs
    · exact absurd hs (by simp)
    · simp only [Option.some.injEq] at hs
      subst hs
      exact ⟨rfl, rfl⟩
  | read_clear =>
    simp only [step] at hs
    split at hs
    · exact absurd hs (by simp)
    · simp only [Option.some.injEq] at hs
      subst hs
      exact ⟨rfl, rfl⟩
  | worker_enter => exact absurd he (by decide)
  | worker_begin => exact absurd he (by decide)
  | worker_xfer o => exact Bool.noConfusion he
  | worker_finish => exact absurd he (by decide)

theorem run_reads_keep (es : List Event) :
    ∀ (s t : Session), (∀ e ∈ es, e.isWorker = false) → run s es = some t →
      t.worker = s.worker ∧ t.client.data_buffer = s.client.data_buffer := by
  induction es with
  | nil =>
    intro s t _ hr
    simp only [run, Option.some.injEq] at hr
    subst hr
    exact ⟨rfl, rfl⟩
  | cons e es ih =>
    intro s t hall hr
    simp only [run] at hr
    cases hs : step s e with
    | none => simp [hs] at hr
    | some s1 =>
      simp only [hs, Option.some_bind] at hr
      obtain ⟨h1, h2⟩ := step_read_keeps s s1 e (hall e (List.mem_cons_self _ _)) hs
      obtain ⟨h3, h4⟩ := ih s1 t (fun x hx => hall x (List.mem_cons_of_mem _ hx)) hr
      exact ⟨h3.trans h1, h4.trans h2⟩

theorem take_set_succ (x : Byte) : ∀ (l : List Byte) (k : Nat), k < l.length →
    (l.set k x).take (k + 1) = l.take k ++ [x] := by
  intro l
  induction l with
  | nil => intro k hk; simp at hk
  | cons a l ih =>
    intro k hk
    cases k with
    | zero => simp
    | succ k =>
      simp only [List.length_cons, Nat.add_lt_add_iff_right] at hk
      simp [ih k hk]

/-- The bytes of the successful transfers of one job land in the buffer in
order, whatever read calls do in between. -/
theorem gather_trace (es : List Event) :
    ∀ (s t : Session) (k : Nat) (rest : List Byte),
      run s es = some t → s.worker = .gather k →
      k + rest.length = MAX_BYTES → rest ≠ [] →
      es.filter Event.isWorker = rest.map (fun b => Event.worker_xfer (some b)) →
      t.worker = .leaving true ∧
        t.client.data_buffer.bytes = s.client.data_buffer.bytes.take k ++ rest := by
  induction es with
  | nil =>
    intro s t k rest _ _ _ hne hf
    simp only [List.filter_nil] at hf
    cases rest with
    | nil => exact absurd rfl hne
    | cons b rest => simp at hf
  | cons e es ih =>
    intro s t k rest hr hw hlen hne hf
    simp only [run] at hr
    cases hs : step s e with
    | none => simp [hs] at hr
    | some s1 =>
      simp only [hs, Option.some_bind] at hr
      cases he : e.isWorker with
      | false =>
        simp only [List.filter_cons, he] at hf
        obtain ⟨h1, h2⟩ := step_read_keeps s s1 e he hs
        obtain ⟨h3, h4⟩ := ih s1 t k rest hr (h1.trans hw) hlen hne (by simpa using hf)
        exact ⟨h3, by rw [h4, h2]⟩
      | true =>
        simp only [List.filter_cons, he, if_true] at hf
        cases rest with
        | nil => exact absurd rfl hne
        | cons b rest =>
          simp only [List.map_cons, List.cons.injEq] at hf
          obtain ⟨hb, hf⟩ := hf
          subst hb
          obtain ⟨c, wk, cp, cl⟩ := s
          simp only at hw
          subst hw
          simp only [List.length_cons] at hlen
          have hk : k < c.data_buffer.bytes.length := by
            rw [c.data_buffer.len]; omega
          by_cases hc : k + 1 < MAX_BYTES
          · simp only [step, xfer_step, hc, if_true, Option.some.injEq] at hs
            subst hs
            have hne2 : rest ≠ [] := by
              intro h0; subst h0; simp at hlen; omega
            obtain ⟨h3, h4⟩ := ih _ t (k + 1) rest hr rfl (by omega) hne2 hf
            refine ⟨h3, ?_⟩
            rw [h4]
            simp only [DataBuffer.set]
            rw [take_set_succ b _ k hk]
            simp
          · simp only [step, xfer_step, hc, if_false, Option.some.injEq] at hs
            subst hs
            have hr0 : rest = [] := by
              cases rest with
              | nil => rfl
              | cons x xs => simp at hlen; omega
            subst hr0
            simp only [List.map_nil, List.filter_eq_nil_iff] at hf
            obtain ⟨h3, h4⟩ := run_reads_keep es _ t
              (fun x hx => by simpa using hf x hx) hr
            refine ⟨h3, ?_⟩
            rw [h4]
            simp only [DataBuffer.set]
            have hlen2 : c.data_buffer.bytes.length = k + 1 := by
              rw [c.data_buffer.len]; simp at hlen; omega
            have := take_set_succ b c.data_buffer.bytes k hk
            rw [List.take_of_length_le (by simp [hlen2])] at this
            exact this

/-- A whole job, from the worker thread taking it to the end of its loop,
with six successful transfers and read calls in between. -/
theorem job_trace (es : List Event) (s t : Session) (rest : List Byte)
    (hr : run s es = some t) (hlen : rest.length = MAX_BYTES)
    (hf : es.filter Event.isWorker =
      .worker_enter :: .worker_begin ::
        rest.map (fun b => Event.worker_xfer (some b))) :
    t.worker = .leaving true ∧ t.client.data_buffer.bytes = rest := by
  obtain ⟨l1, l2, hes, hl1, -, hf2⟩ := List.filter_eq_cons_iff.1 hf
  obtain ⟨l3, l4, hes2, hl3, -, hf4⟩ := List.filter_eq_cons_iff.1 hf2
  subst hes hes2
  rw [run_append] at hr
  cases h1 : run s l1 with
  | none => simp [h1] at hr
  | some s1 =>
    simp only [h1, Option.some_bind, run] at hr
    obtain ⟨hw1, -⟩ := run_reads_keep l1 s s1 (fun x hx => by simpa using hl1 x hx) h1
    cases h2 : step s1 .worker_enter with
    | none => simp [h2] at hr
    | some s2 =>
      simp only [h2, Option.some_bind] at hr
      have hw2 : s2.worker = .entered := by
        simp only [step] at h2
        split at h2
        · exact absurd h2 (by simp)
        · simp only [Option.some.injEq] at h2
          subst h2
          rfl
      rw [run_append] at hr
      cases h3 : run s2 l3 with
      | none => simp [h3] at hr
      | some s3 =>
        simp only [h3, Option.some_bind, run] at hr
        obtain ⟨hw3, -⟩ :=
          run_reads_keep l3 s2 s3 (fun x hx => by simpa using hl3 x hx) h3
        cases h4 : step s3 .worker_begin with
        | none => simp [h4] at hr
        | some s4 =>
          simp only [h4, Option.some_bind] at hr
          have hw4 : s4.worker = .gather 0 := by
            obtain ⟨c, wk, cp, cl⟩ := s3
            simp only at hw3
            rw [hw2] at hw3
            subst hw3
            simp only [step, Option.some.injEq] at h4
            subst h4
            rfl
          have hne : rest ≠ [] := by
            intro h0; subst h0; simp [MAX_BYTES] at hlen
          obtain ⟨h5, h6⟩ := gather_trace l4 s4 t 0 rest hr hw4 (by omega) hne hf4
          exact ⟨h5, by simpa using h6⟩

/-- The state the second critical section leaves when the loop has ended
with `res >= 0`. -/
theorem finish_after_success (s t : Session) (hw : s.worker = .leaving true)
    (hs : step s .worker_finish = some t) :
    t.worker = .idle ∧ t.client.data_ready = true ∧ t.client.processing = false ∧
    t.client.data_buffer = s.client.data_buffer ∧
    t.client.wq.pending = s.client.wq.pending ∧
    t.copying = s.copying ∧ t.clearing = s.clearing := by
  obtain ⟨c, wk, cp, cl⟩ := s
  simp only at hw
  subst hw
  simp only [step, Option.some.injEq] at hs
  subst hs
  simp [read_job_end]

/-- Once a complete sample waits with the worker thread idle, no job queued
and no read call in progress, the next read call gets it. -/
theorem reads_back_of_idle (d : Session) (bs : List Byte)
    (hw : d.worker = .idle) (hq : d.client.wq.pending = 0)
    (hc : d.copying = 0) (hl : d.clearing = 0)
    (hd : d.client.data_ready = true) (hp : d.client.processing = false)
    (hb : d.client.data_buffer.bytes = bs) : ReadsBack d bs := by
  obtain ⟨⟨⟨pend, rn⟩, p, dr, buf⟩, wk, cp, cl⟩ := d
  simp only at hw hq hc hl hd hp hb
  subst hw hq hc hl hd hp hb
  refine ⟨rfl, rfl, rfl, ?_, ?_, ?_, ?_⟩
  · intro e he
    cases e with
    | read_enter w a q => exact ⟨w, a, q, rfl⟩
    | read_copy k => simp [step] at he
    | read_clear => simp [step] at he
    | worker_enter => simp [step] at he
    | worker_begin => simp [step] at he
    | worker_xfer o => simp [step] at he
    | worker_finish => simp [step] at he
  · intro a q
    simp [step, wr_rd_enter, EFAULT]
  · intro q
    simp [step, wr_rd_enter, ENOMEM]
  · intro q
    refine ⟨by simp [wr_rd_enter, wr_rd_locked, MAX_BYTES], ?_⟩
    refine ⟨⟨⟨⟨0, rn⟩, false, true, buf⟩, .idle, 1, 0⟩,
      by simp [step, wr_rd_enter, wr_rd_locked, MAX_BYTES], ?_, ?_, ?_⟩
    · intro e he
      cases e with
      | read_enter w a q => exact Or.inl ⟨w, a, q, rfl⟩
      | read_copy k => exact Or.inr ⟨k, rfl⟩
      | read_clear => simp [step] at he
      | worker_enter => simp [step] at he
      | worker_begin => simp [step] at he
      | worker_xfer o => simp [step] at he
      | worker_finish => simp [step] at he
    · simp [wr_rd_copy, MAX_BYTES]
    · refine ⟨⟨⟨⟨0, rn⟩, false, true, buf⟩, .idle, 0, 1⟩, by simp [step], ?_, ?_⟩
      · intro e he
        cases e with
        | read_enter w a q => exact Or.inl ⟨w, a, q, rfl⟩
        | read_copy k => simp [step] at he
        | read_clear => exact Or.inr rfl
        | worker_enter => simp [step] at he
        | worker_begin => simp [step] at he
        | worker_xfer o => simp [step] at he
        | worker_finish => simp [step] at he
      · refine ⟨⟨⟨⟨0, rn⟩, false, false, buf⟩, .idle, 0, 0⟩,
          by simp [step, wr_rd_clear], rfl, ?_, ?_, ?_⟩ <;>
        cases q <;>
          simp [i2cnunchuck_wr_rd, wr_rd_locked, wr_rd_copy, wr_rd_clear, MAX_BYTES]

/-- The uninterrupted call is the three parts of a read call run in a row. -/
theorem wr_rd_uninterrupted (c : Client) (w a q k : Bool) :
    i2cnunchuck_wr_rd c w a q k =
      if (wr_rd_enter c w a q).1 = (MAX_BYTES : Int) then
        ⟨(wr_rd_copy (wr_rd_enter c w a q).2 k).1,
         (wr_rd_copy (wr_rd_enter c w a q).2 k).2,
         wr_rd_clear (wr_rd_enter c w a q).2⟩
      else ⟨(wr_rd_enter c w a q).1, none, (wr_rd_enter c w a q).2⟩ := by
  obtain ⟨⟨pend, r⟩, p, d, buf⟩ := c
  cases w <;> cases a <;> cases q <;> cases k <;> cases p <;> cases d <;>
    simp [i2cnunchuck_wr_rd, wr_rd_enter, wr_rd_locked, queue_work, MAX_BYTES,
      EFAULT, ENOMEM]

/-- The loop of the handler is the iteration of `xfer_step`. -/
theorem gather_loop_unfold (bus : Nat → Option Byte) (fuel count : Nat)
    (buf : DataBuffer) :
    gather_loop bus (fuel + 1) count buf =
      match xfer_step count buf (bus count) with
      | (.gather n, buf1) => gather_loop bus fuel n buf1
      | (.leaving ok, buf1) => some (ok, if ok then count + 1 else count, buf1)
      | _ => none := by
  cases hb : bus count with
  | none => simp [gather_loop, xfer_step, hb]
  | some b =>
    by_cases hc : count + 1 < MAX_BYTES <;>
      simp [gather_loop, xfer_step, hb, hc]

/-! ### The cases of one read call -/

theorem read_idle (c : Client) (hd : c.data_ready = false) (hp : c.processing = false)
    (k : Bool) :
    (i2cnunchuck_wr_rd c true true true k).ret = -2 ∧
    (i2cnunchuck_wr_rd c true true true k).user_buf = none ∧
    (i2cnunchuck_wr_rd c true true true k).client =
      { c with wq := { c.wq with pending := c.wq.pending + 1 } } := by
  obtain ⟨⟨pend, r⟩, p, d, buf⟩ := c
  simp only at hd hp
  subst hd hp
  cases k <;> simp [i2cnunchuck_wr_rd, wr_rd_locked, wr_rd_copy, wr_rd_clear, queue_work, MAX_BYTES]

theorem read_busy (c : Client) (hd : c.data_ready = false) (hp : c.processing = true)
    (q k : Bool) :
    (i2cnunchuck_wr_rd c true true q k).ret = -1 ∧
    (i2cnunchuck_wr_rd c true true q k).user_buf = none ∧
    (i2cnunchuck_wr_rd c true true q k).client = c := by
  obtain ⟨⟨pend, r⟩, p, d, buf⟩ := c
  simp only at hd hp
  subst hd hp
  cases q <;> cases k <;> simp [i2cnunchuck_wr_rd, wr_rd_locked, wr_rd_copy, wr_rd_clear, queue_work, MAX_BYTES]

/-- Outcome of the loop and the second critical section of the handler. -/
theorem gather_job_outcome_aux (c : Client) (bus : Nat → Option Byte) :
    ∃ c1 n, read_job_finish c bus = some c1 ∧ transfers c bus = some n ∧
      c1.processing = false ∧
      (c1.data_ready = true ↔ ∀ i, i < MAX_BYTES → (bus i).isSome = true) ∧
      ((∀ i, i < MAX_BYTES → (bus i).isSome = true) → n = MAX_BYTES) ∧
      (∀ k, k < MAX_BYTES → bus k = none →
        (∀ j, j < k → (bus j).isSome = true) →
        n = k + 1 ∧ c1.data_ready = false) := by
  obtain ⟨ok, n, buf1, hg, hok, hfail⟩ :=
    gather_loop_spec bus MAX_BYTES 0 c.data_buffer (by decide) (by omega)
  cases ok with
  | true =>
    obtain ⟨hn, hall⟩ := hok rfl
    refine ⟨{ c with data_buffer := buf1, processing := false, data_ready := true },
      n, by simp [read_job_finish, hg], by simp [transfers, hg], rfl, ?_, ?_, ?_⟩
    · simp only [true_iff]
      exact fun i hi => hall i (Nat.zero_le _) hi
    · intro _; simpa using hn
    · intro k hk hb _
      have := hall k (Nat.zero_le _) hk
      simp [hb] at this
  | false =>
    obtain ⟨-, hn, hb, hbefore⟩ := hfail rfl
    refine ⟨{ c with data_buffer := buf1, processing := false, data_ready := false },
      n + 1, by simp [read_job_finish, hg], by simp [transfers, hg], rfl, ?_, ?_, ?_⟩
    · constructor
      · intro h; simp at h
      · intro h
        have := h n hn
        simp [hb] at this
    · intro h
      have := h n hn
      simp [hb] at this
    · intro k hk hkb hkbefore
      refine ⟨?_, by simp⟩
      rcases Nat.lt_trichotomy n k with h | h | h
      · have := hkbefore n h
        simp [hb] at this
      · simp [h]
      · have := hbefore k (Nat.zero_le _) h
        simp [hkb] at this

/-- A successful open hands out the freshly set up client. -/
theorem open_success_client (reg : Registry) (k : Kernel) (minor : Nat)
    (adap_ok nclient_ok client_ok wq_ok write_ok : Bool) (r : OpenResult)
    (hopen : i2cnunchuck_open_initialize reg k minor adap_ok nclient_ok client_ok
      wq_ok write_ok = some r)
    (hret : r.ret = 0) : r.private_data = some Client.fresh := by
  unfold i2cnunchuck_open_initialize at hopen
  cases hl : i2c_dev_get_by_minor reg minor with
  | none =>
    simp only [hl, Option.some.injEq] at hopen
    subst hopen
    simp [ENODEV] at hret
  | some pd =>
    obtain ⟨p, d⟩ := pd
    simp only [hl] at hopen
    cases adap_ok <;> cases nclient_ok <;> cases client_ok <;> cases wq_ok <;>
      cases write_ok <;> simp at hopen <;> subst hopen <;>
      first
        | rfl
        | (simp [ENODEV, ENOMEM, EFAULT] at hret)

/-! ## The claims on the session state machine -/

/-- C1: in every session reached from the client a successful open hands out
(return value 0) by any interleaving of the critical sections and the unlocked
steps of read calls and of the worker thread, with any outcomes of the bus
transfers and of the other kernel calls, `processing` and `data_ready` are not
both set. -/
theorem flags_never_both_set (reg : Registry) (k : Kernel) (minor : Nat)
    (adap_ok nclient_ok client_ok wq_ok write_ok : Bool) (r : OpenResult)
    (c0 : Client) (s : Session) (es : List Event)
    (hopen : i2cnunchuck_open_initialize reg k minor adap_ok nclient_ok client_ok
      wq_ok write_ok = some r)
    (hret : r.ret = 0) (hpd : r.private_data = some c0)
    (h : run (Session.start c0) es = some s) :
    ¬ (s.client.processing = true ∧ s.client.data_ready = true) := by
  have hc0 := open_success_client reg k minor adap_ok nclient_ok client_ok wq_ok
    write_ok r hopen hret
  rw [hpd, Option.some.injEq] at hc0
  subst hc0
  have hf := run_preserves_FlagsOk es _ s start_FlagsOk h
  intro ⟨hp, hd⟩
  unfold FlagsOk at hf
  cases hg : s.worker.gathering with
  | true => simp [hg, hd] at hf
  | false => simp [hg, hp] at hf

/-- The session in which the worker thread has just set `processing` for the
first job is reachable and has only `processing` set. -/
theorem flags_never_both_set_witness :
    i2cnunchuck_open_initialize registryOne kernelIdle 0 true true true true true
      = some openedOnce ∧
    openedOnce.ret = 0 ∧ openedOnce.private_data = some Client.fresh ∧
    run (Session.start Client.fresh)
      [.read_enter true true true, .worker_enter, .worker_begin]
      = some sessionGathering ∧
    ¬ (sessionGathering.client.processing = true ∧
        sessionGathering.client.data_ready = true) :=
  ⟨rfl, rfl, rfl, rfl,
    flags_never_both_set registryOne kernelIdle 0 true true true true true openedOnce
      Client.fresh sessionGathering
      [.read_enter true true true, .worker_enter, .worker_begin]
      rfl rfl rfl rfl⟩

/-- C10: a gather job always finishes; when it does `processing` is clear, and
`data_ready` is set exactly when all six transfers succeed.  The job stops at
the first transfer that fails: if that is transfer `k` the job has made `k + 1`
transfers and `data_ready` is clear. -/
theorem gather_job_outcome (c : Client) (bus : Nat → Option Byte) :
    ∃ c1 n, read_job_finish c bus = some c1 ∧ transfers c bus = some n ∧
      c1.processing = false ∧
      (c1.data_ready = true ↔ ∀ i, i < MAX_BYTES → (bus i).isSome = true) ∧
      ((∀ i, i < MAX_BYTES → (bus i).isSome = true) → n = MAX_BYTES) ∧
      (∀ k, k < MAX_BYTES → bus k = none →
        (∀ j, j < k → (bus j).isSome = true) →
        n = k + 1 ∧ c1.data_ready = false) :=
  gather_job_outcome_aux c bus

/-- C2, as the claim states it, fails: right after open a read returns Pending
(-2) and queues a job; a second read made before the worker thread has started
that job finds `processing` still clear, returns Pending again instead of Busy
and queues a second job, so that two jobs are outstanding.  The same happens
when the worker thread has already entered `read_job_handler` for the first
job but has not yet reached its first critical section. -/
theorem second_read_queues_second_job :
    (i2cnunchuck_wr_rd Client.fresh true true true true).ret = -2 ∧
    (i2cnunchuck_wr_rd Client.fresh true true true true).client.wq.outstanding = 1 ∧
    (i2cnunchuck_wr_rd (i2cnunchuck_wr_rd Client.fresh true true true true).client
      true true true true).ret = -2 ∧
    (i2cnunchuck_wr_rd (i2cnunchuck_wr_rd Client.fresh true true true true).client
      true true true true).client.wq.outstanding = 2 ∧
    (run (Session.start Client.fresh) [.read_enter true true true, .worker_enter]).map
      (fun s => (s.client.wq.running, s.client.processing,
        (wr_rd_enter s.client true true true).1,
        (wr_rd_enter s.client true true true).2.wq.outstanding))
      = some (true, false, -2, 2) := by
  decide

/-- C2, amended: in every session reached from open, while the worker thread
is between the first critical section (lines 143-146) and the second critical
section (lines 159-165) of a job, `processing` is set and `data_ready` clear,
a read call submits nothing whatever the outcomes of its kernel calls, and
when its priming write and job allocation succeed it returns Busy (-1).
Outside that window, also while a job is queued or the worker thread has
entered the handler without having reached line 143, `processing` is clear,
and a read call that finds `data_ready` clear and whose kernel calls succeed
returns Pending (-2) and queues one more job. -/
theorem no_submission_while_processing (es : List Event) (s : Session)
    (h : run (Session.start Client.fresh) es = some s) :
    (s.worker.gathering = true →
      s.client.processing = true ∧ s.client.data_ready = false ∧
      (∀ q, wr_rd_enter s.client true true q = (-1, s.client)) ∧
      ∀ w a q, (wr_rd_enter s.client w a q).2 = s.client) ∧
    (s.worker.gathering = false →
      s.client.processing = false ∧
      (s.client.data_ready = false →
        (wr_rd_enter s.client true true true).1 = -2 ∧
        (wr_rd_enter s.client true true true).2.wq.pending =
          s.client.wq.pending + 1)) := by
  have hf := run_preserves_FlagsOk es _ s start_FlagsOk h
  unfold FlagsOk at hf
  obtain ⟨⟨⟨pend, rn⟩, p, dr, buf⟩, wk, cp, cl⟩ := s
  constructor
  · intro hg
    simp only [hg, if_true] at hf
    have hp : p = true := hf.1
    have hd : dr = false := hf.2
    subst hp hd
    refine ⟨rfl, rfl, fun q => ?_, fun w a q => ?_⟩
    · cases q <;> simp [wr_rd_enter, wr_rd_locked]
    · cases w <;> cases a <;> cases q <;> simp [wr_rd_enter, wr_rd_locked]
  · intro hg
    simp only [hg] at hf
    simp only [Bool.false_eq_true, if_false] at hf
    have hp : p = false := hf
    subst hp
    refine ⟨rfl, fun hd => ?_⟩
    have hd2 : dr = false := hd
    subst hd2
    simp [wr_rd_enter, wr_rd_locked, queue_work]

/-- A read made while the first job is in its loop returns Busy and queues
nothing. -/
theorem no_submission_while_processing_witness :
    run (Session.start Client.fresh)
      [.read_enter true true true, .worker_enter, .worker_begin]
      = some sessionGathering ∧
    sessionGathering.worker.gathering = true ∧
    wr_rd_enter sessionGathering.client true true true
      = (-1, sessionGathering.client) ∧
    sessionGathering.client.processing = true :=
  ⟨rfl, rfl,
    ((no_submission_while_processing
      [.read_enter true true true, .worker_enter, .worker_begin]
      sessionGathering rfl).1 rfl).2.2.1 true,
    ((no_submission_while_processing
      [.read_enter true true true, .worker_enter, .worker_begin]
      sessionGathering rfl).1 rfl).1⟩

/-- C3, as the claim states it, fails.  Two read calls right after open queue
two jobs, and the first job gathers 10, 20, 30, 40, 50, 1.  If the second job
then gathers 1, 2, 3, 4, 5, 6 before the next read call, that call finds
`data_ready` set and delivers 1, 2, 3, 4, 5, 6.  If instead the next read call
comes first, finds `data_ready` set and leaves the lock, and the worker thread
then starts the second job and stores two bytes before the call runs
`copy_to_user`, the call returns 6 with 99, 98, 30, 40, 50, 1. -/
theorem next_read_can_miss_the_sample :
    (run (Session.start Client.fresh) twoJobsOneDone).map
      (fun s => (s.client.data_ready, s.client.data_buffer.bytes,
        (wr_rd_enter s.client true true true).1))
      = some (true, [10, 20, 30, 40, 50, 1], 6) ∧
    (run (Session.start Client.fresh) (twoJobsOneDone ++ secondJob)).map
      (fun s => ((wr_rd_enter s.client true true true).1, wr_rd_copy s.client true))
      = some (6, 6, some [1, 2, 3, 4, 5, 6]) ∧
    (run (Session.start Client.fresh) (twoJobsOneDone ++ overtakenRead)).map
      (fun s => (s.copying, wr_rd_copy s.client true))
      = some (1, 6, some [99, 98, 30, 40, 50, 1]) := by
  decide

/-- C3, amended: when the six transfers of a gather job succeed with bytes
`b0, ..., b5` (read calls may run in between), and at the end of the job no
further job is queued and no read call is between its unlock and line 280,
then the sample is read back: `data_ready` is set and the buffer holds
`[b0, b1, b2, b3, b4, b5]`; nothing can happen but a read call; read calls that
return before the test of `data_ready` change nothing; and the next read call
that reaches the test, if no other read call overlaps it and its
`copy_to_user` succeeds, returns 6, delivers exactly
`[b0, b1, b2, b3, b4, b5]` and leaves `data_ready` clear. -/
theorem sample_fidelity (s d : Session) (es : List Event)
    (b0 b1 b2 b3 b4 b5 : Byte)
    (hs : s.worker = .gather 0)
    (hes : es.filter Event.isWorker =
      [.worker_xfer (some b0), .worker_xfer (some b1), .worker_xfer (some b2),
       .worker_xfer (some b3), .worker_xfer (some b4), .worker_xfer (some b5)])
    (hrun : run s (es ++ [.worker_finish]) = some d)
    (hq : d.client.wq.pending = 0) (hc : d.copying = 0) (hl : d.clearing = 0) :
    ReadsBack d [b0, b1, b2, b3, b4, b5] := by
  rw [run_append] at hrun
  cases h1 : run s es with
  | none => simp [h1] at hrun
  | some t =>
    simp only [h1, Option.some_bind, run] at hrun
    cases h2 : step t .worker_finish with
    | none => simp [h2] at hrun
    | some t2 =>
      simp only [h2, Option.some_bind, Option.some.injEq] at hrun
      subst hrun
      obtain ⟨hw, hb⟩ := gather_trace es s t 0 [b0, b1, b2, b3, b4, b5] h1 hs
        (by simp [MAX_BYTES]) (by simp) (by simpa using hes)
      obtain ⟨f1, f2, f3, f4, -, -, -⟩ := finish_after_success t t2 hw h2
      exact reads_back_of_idle t2 _ f1 hq hc hl f2 f3 (by rw [f4]; simpa using hb)

/-- The sample 10, 20, 30, 40, 50, 1 gathered by the first job, during which
one read call is refused, is read back. -/
theorem sample_fidelity_witness :
    run sessionGathering (sampleRun ++ [.worker_finish]) = some sessionSampled ∧
    ReadsBack sessionSampled [10, 20, 30, 40, 50, 1] :=
  ⟨rfl, sample_fidelity sessionGathering sessionSampled sampleRun 10 20 30 40 50 1
    rfl (by decide) rfl rfl rfl rfl⟩

/-- C4, as the claim states it, fails: the read call right after open returns
Pending (-2) and queues one job, but `processing` is still clear when it
returns. -/
theorem pending_read_leaves_processing_clear :
    Client.fresh.data_ready = false ∧ Client.fresh.processing = false ∧
    (i2cnunchuck_wr_rd Client.fresh true true true true).ret = -2 ∧
    (i2cnunchuck_wr_rd Client.fresh true true true true).client.wq.pending = 1 ∧
    (i2cnunchuck_wr_rd Client.fresh true true true true).client.processing = false := by
  decide

/-- C4, amended: with `data_ready` and `processing` both clear, a read call
whose priming write, job allocation and queue submission succeed returns
Pending (-2), copies nothing to the caller, queues exactly one job and changes
nothing else: both flags are still clear when it returns.  `processing` is set
(and `data_ready` cleared) by the worker thread when it starts the job. -/
theorem pending_read (c : Client) (hd : c.data_ready = false)
    (hp : c.processing = false) (k : Bool) :
    (i2cnunchuck_wr_rd c true true true k).ret = -2 ∧
    (i2cnunchuck_wr_rd c true true true k).user_buf = none ∧
    (i2cnunchuck_wr_rd c true true true k).client.wq.pending = c.wq.pending + 1 ∧
    (i2cnunchuck_wr_rd c true true true k).client.wq.running = c.wq.running ∧
    (i2cnunchuck_wr_rd c true true true k).client.processing = false ∧
    (i2cnunchuck_wr_rd c true true true k).client.data_ready = false ∧
    (i2cnunchuck_wr_rd c true true true k).client.data_buffer = c.data_buffer ∧
    (read_job_begin (i2cnunchuck_wr_rd c true true true k).client).processing = true ∧
    (read_job_begin (i2cnunchuck_wr_rd c true true true k).client).data_ready = false := by
  obtain ⟨r1, r2, r3⟩ := read_idle c hd hp k
  rw [r3]
  exact ⟨r1, r2, rfl, rfl, hp, hd, rfl, rfl, rfl⟩

/-- The first read after open returns Pending and queues one job. -/
theorem pending_read_witness :
    (i2cnunchuck_wr_rd Client.fresh true true true true).ret = -2 ∧
    (i2cnunchuck_wr_rd Client.fresh true true true true).user_buf = none ∧
    (i2cnunchuck_wr_rd Client.fresh true true true true).client.wq.pending =
      Client.fresh.wq.pending + 1 ∧
    (i2cnunchuck_wr_rd Client.fresh true true true true).client.wq.running =
      Client.fresh.wq.running ∧
    (i2cnunchuck_wr_rd Client.fresh true true true true).client.processing = false ∧
    (i2cnunchuck_wr_rd Client.fresh true true true true).client.data_ready = false ∧
    (i2cnunchuck_wr_rd Client.fresh true true true true).client.data_buffer =
      Client.fresh.data_buffer ∧
    (read_job_begin (i2cnunchuck_wr_rd Client.fresh true true true true).client).processing
      = true ∧
    (read_job_begin (i2cnunchuck_wr_rd Client.fresh true true true true).client).data_ready
      = false :=
  pending_read Client.fresh rfl rfl true

/-- C5, as the claim states it, fails: with `processing` set and a successful
priming write, a read call whose job allocation fails returns `-ENOMEM` (-12)
and not Busy (-1). -/
theorem busy_read_can_return_enomem :
    clientRunning.processing = true ∧ clientRunning.data_ready = false ∧
    (i2cnunchuck_wr_rd clientRunning true false true true).ret = -12 ∧
    (i2cnunchuck_wr_rd clientRunning true false true true).ret ≠ -1 := by
  decide

/-- C5, amended: with `processing` set and `data_ready` clear, a read call
whose priming write and job allocation succeed returns Busy (-1), copies
nothing, submits no job and leaves the whole client (queue, flags and sample
buffer) unchanged. -/
theorem busy_read (c : Client) (hp : c.processing = true) (hd : c.data_ready = false)
    (q k : Bool) :
    (i2cnunchuck_wr_rd c true true q k).ret = -1 ∧
    (i2cnunchuck_wr_rd c true true q k).user_buf = none ∧
    (i2cnunchuck_wr_rd c true true q k).client = c :=
  read_busy c hd hp q k

/-- A read on the client whose first job runs returns Busy. -/
theorem busy_read_witness :
    (i2cnunchuck_wr_rd clientRunning true true true true).ret = -1 ∧
    (i2cnunchuck_wr_rd clientRunning true true true true).user_buf = none ∧
    (i2cnunchuck_wr_rd clientRunning true true true true).client = clientRunning :=
  busy_read clientRunning rfl rfl true true

/-- C9, as the claim states it, fails.  After a job that failed at its third
transfer, a read call whose priming write succeeds but whose job allocation
fails returns `-ENOMEM` (-12) instead of Pending and submits no job.  And when
after such a job two read calls each queue a job and the first of these jobs
gathers 10, 20, 30, 40, 50, 1, the following read call can be overtaken by the
second job and returns 6 with 99, 98, 30, 40, 50, 1. -/
theorem retry_can_fail :
    run (Session.start Client.fresh) failedJob = some sessionAfterFailure ∧
    (wr_rd_enter sessionAfterFailure.client true false true).1 = -12 ∧
    (wr_rd_enter sessionAfterFailure.client true false true).2.wq.outstanding = 0 ∧
    (i2cnunchuck_wr_rd sessionAfterFailure.client true false true true).ret = -12 ∧
    (run (Session.start Client.fresh) retryTwice).map
      (fun s => (s.client.data_ready, s.client.data_buffer.bytes,
        (wr_rd_enter s.client true true true).1))
      = some (true, [10, 20, 30, 40, 50, 1], 6) ∧
    (run (Session.start Client.fresh) (retryTwice ++ overtakenRead)).map
      (fun s => (s.copying, wr_rd_copy s.client true))
      = some (1, 6, some [99, 98, 30, 40, 50, 1]) :=
  ⟨rfl, by decide, by decide, by decide, by decide, by decide⟩

/-- C9, amended: when a transfer of a gather job fails, the job ends with
`processing` and `data_ready` clear and the worker thread idle; a read call
made in that state whose priming write, job allocation and queue submission
succeed returns Pending (-2) and queues a job, which the worker thread can
take; and when the worker thread then runs one job whose six transfers succeed
with bytes `b0, ..., b5` (read calls may run in between), and at the end of
that job no further job is queued and no read call is between its unlock and
line 280, the sample is read back: the following read call that reaches the
test of `data_ready`, if no other read call overlaps it and its
`copy_to_user` succeeds, returns 6 and delivers exactly
`[b0, b1, b2, b3, b4, b5]`. -/
theorem retry_after_failed_gather (s : Session) (k : Nat)
    (hs : s.worker = .gather k) :
    ∃ s1, run s [.worker_xfer none, .worker_finish] = some s1 ∧
      s1.client.processing = false ∧ s1.client.data_ready = false ∧
      s1.worker = .idle ∧
      (wr_rd_enter s1.client true true true).1 = -2 ∧
      ∃ s2, step s1 (.read_enter true true true) = some s2 ∧
        s2.client.wq.pending = s1.client.wq.pending + 1 ∧
        s2.client.processing = false ∧ s2.client.data_ready = false ∧
        (∃ s3, step s2 .worker_enter = some s3 ∧ s3.worker = .entered) ∧
        ∀ (es : List Event) (d : Session) (b0 b1 b2 b3 b4 b5 : Byte),
          es.filter Event.isWorker =
            [.worker_enter, .worker_begin,
             .worker_xfer (some b0), .worker_xfer (some b1), .worker_xfer (some b2),
             .worker_xfer (some b3), .worker_xfer (some b4), .worker_xfer (some b5)] →
          run s2 (es ++ [.worker_finish]) = some d →
          d.client.wq.pending = 0 → d.copying = 0 → d.clearing = 0 →
          ReadsBack d [b0, b1, b2, b3, b4, b5] := by
  obtain ⟨⟨⟨pend, rn⟩, p, dr, buf⟩, wk, cp, cl⟩ := s
  simp only at hs
  subst hs
  refine ⟨⟨⟨⟨pend, false⟩, false, false, buf⟩, .idle, cp, cl⟩,
    by simp [run, step, xfer_step, read_job_end], rfl, rfl, rfl,
    by simp [wr_rd_enter, wr_rd_locked, queue_work],
    ⟨⟨⟨pend + 1, false⟩, false, false, buf⟩, .idle, cp, cl⟩,
    by simp [step, wr_rd_enter, wr_rd_locked, queue_work, MAX_BYTES],
    rfl, rfl, rfl,
    ⟨⟨⟨⟨pend, true⟩, false, false, buf⟩, .entered, cp, cl⟩, by simp [step], rfl⟩, ?_⟩
  intro es d b0 b1 b2 b3 b4 b5 hes hrun hq hc hl
  rw [run_append] at hrun
  cases h1 : run ⟨⟨⟨pend + 1, false⟩, false, false, buf⟩, .idle, cp, cl⟩ es with
  | none => simp [h1] at hrun
  | some t =>
    simp only [h1, Option.some_bind, run] at hrun
    cases h2 : step t .worker_finish with
    | none => simp [h2] at hrun
    | some t2 =>
      simp only [h2, Option.some_bind, Option.some.injEq] at hrun
      subst hrun
      obtain ⟨hw, hb⟩ := job_trace es _ t [b0, b1, b2, b3, b4, b5] h1
        (by simp [MAX_BYTES]) (by simpa using hes)
      obtain ⟨f1, f2, f3, f4, -, -, -⟩ := finish_after_success t t2 hw h2
      exact reads_back_of_idle t2 _ f1 hq hc hl f2 f3 (by rw [f4]; exact hb)

/-- The first job fails at its third transfer; the retry queues a job, which
gathers 10, 20, 30, 40, 50, 1, and the sample is read back. -/
theorem retry_after_failed_gather_witness :
    sessionMidJob.worker = .gather 2 ∧
    run sessionMidJob [.worker_xfer none, .worker_finish] = some sessionAfterFailure ∧
    sessionAfterFailure.client.processing = false ∧
    sessionAfterFailure.client.data_ready = false ∧
    (wr_rd_enter sessionAfterFailure.client true true true).1 = -2 ∧
    step sessionAfterFailure (.read_enter true true true) = some sessionRetry ∧
    run sessionRetry (retryRun ++ [.worker_finish]) = some sessionSampled ∧
    ReadsBack sessionSampled [10, 20, 30, 40, 50, 1] := by
  obtain ⟨s1, h1, -, -, -, -, s2, h2, -, -, -, -, hall⟩ :=
    retry_after_failed_gather sessionMidJob 2 rfl
  have e1 : run sessionMidJob [.worker_xfer none, .worker_finish]
      = some sessionAfterFailure := rfl
  rw [e1, Option.some.injEq] at h1
  subst h1
  have e2 : step sessionAfterFailure (.read_enter true true true)
      = some sessionRetry := rfl
  rw [e2, Option.some.injEq] at h2
  subst h2
  exact ⟨rfl, rfl, rfl, rfl, by decide, rfl, rfl,
    hall retryRun sessionSampled 10 20 30 40 50 1 (by decide) rfl rfl rfl rfl⟩

/-! ## Lemmas on the registry -/

theorem lookup_none_iff (reg : Registry) (n : Nat) :
    i2c_dev_get_by_minor reg n = none ↔ n ∉ reg.map (fun d => d.adap.nr) := by
  induction reg with
  | nil => simp [i2c_dev_get_by_minor]
  | cons d rest ih =>
    by_cases h : d.adap.nr = n
    · simp [i2c_dev_get_by_minor, h]
    · have h2 : ¬ n = d.adap.nr := fun e => h e.symm
      simp [i2c_dev_get_by_minor, h, h2, ih]

theorem lookup_append_new (reg : Registry) (d : I2cDev)
    (h : i2c_dev_get_by_minor reg d.adap.nr = none) :
    i2c_dev_get_by_minor (reg ++ [d]) d.adap.nr = some (reg.length, d) := by
  induction reg with
  | nil => simp [i2c_dev_get_by_minor]
  | cons e rest ih =>
    by_cases he : e.adap.nr = d.adap.nr
    · simp [i2c_dev_get_by_minor, he] at h
    · simp only [i2c_dev_get_by_minor, he, if_false, Option.map_eq_none'] at h
      simp [i2c_dev_get_by_minor, he, ih h]

theorem set_last (reg : Registry) (a b : I2cDev) :
    (reg ++ [a]).set reg.length b = reg ++ [b] := by
  induction reg with
  | nil => rfl
  | cons e rest ih => simp [List.set, ih]

theorem erase_last (reg : Registry) (a : I2cDev) :
    return_i2c_dev (reg ++ [a]) reg.length = reg := by
  induction reg with
  | nil => rfl
  | cons e rest ih =>
    simp only [return_i2c_dev] at ih
    simp [return_i2c_dev, List.eraseIdx, ih]

/-- What `i2cdev_attach_adapter` does to the list: it leaves it as it was, or
appends one node for the adapter. -/
theorem attach_registry (reg : Registry) (a : I2cAdapter) (ok : Bool)
    (ce : Option Int) (fr : Int) :
    (i2cdev_attach_adapter reg a ok ce fr).2 = reg ∨
    (i2cdev_attach_adapter reg a ok ce fr).2 = reg ++ [⟨a, some a.nr⟩] := by
  unfold i2cdev_attach_adapter get_free_i2c_dev
  by_cases hn : a.name ≠ ADAPTER_NAME
  · simp [hn]
  · by_cases hm : a.nr ≥ I2C_MINORS
    · simp [hn, hm]
    · cases ok
      · simp [hn, hm]
      · cases ce with
        | some e => simp [hn, hm, erase_last]
        | none =>
          by_cases hf : fr ≠ 0
          · simp [hn, hm, hf, set_last, erase_last]
          · simp [hn, hm, hf, set_last]

theorem attach_success (reg : Registry) (a : I2cAdapter)
    (hname : a.name = ADAPTER_NAME) (hnr : a.nr < I2C_MINORS) :
    i2cdev_attach_adapter reg a true none 0 = (0, reg ++ [⟨a, some a.nr⟩]) := by
  have hm : ¬ a.nr ≥ I2C_MINORS := by omega
  simp [i2cdev_attach_adapter, get_free_i2c_dev, hname, hm, set_last]

theorem detach_preserves_UniqueNr (reg : Registry) (a : I2cAdapter)
    (h : UniqueNr reg) : UniqueNr (i2cdev_detach_adapter reg a).2 := by
  unfold i2cdev_detach_adapter
  cases hl : i2c_dev_get_by_minor reg a.nr with
  | none => simpa using h
  | some r =>
    obtain ⟨p, d⟩ := r
    simp only [return_i2c_dev, UniqueNr]
    exact List.Nodup.sublist ((List.eraseIdx_sublist reg p).map _) h

theorem attach_preserves_UniqueNr (reg : Registry) (a : I2cAdapter) (ok : Bool)
    (ce : Option Int) (fr : Int) (h : UniqueNr reg)
    (hnew : i2c_dev_get_by_minor reg a.nr = none) :
    UniqueNr (i2cdev_attach_adapter reg a ok ce fr).2 := by
  rcases attach_registry reg a ok ce fr with e | e
  · rw [e]; exact h
  · rw [e]
    have hn := (lookup_none_iff reg a.nr).1 hnew
    unfold UniqueNr at h ⊢
    rw [List.map_append, List.nodup_append]
    refine ⟨h, by simp, ?_⟩
    intro x hx hy
    simp only [List.map_cons, List.map_nil, List.mem_singleton] at hy
    subst hy
    exact hn hx

theorem regRun_preserves_UniqueNr (es : List RegEvent) :
    ∀ reg : Registry, UniqueNr reg → noReattach reg es = true →
      UniqueNr (regRun reg es) := by
  induction es with
  | nil => intro reg h _; exact h
  | cons e es ih =>
    intro reg h hn
    cases e with
    | attach a ok ce fr =>
      simp only [noReattach, Bool.and_eq_true, Option.isNone_iff_eq_none] at hn
      exact ih _ (attach_preserves_UniqueNr reg a ok ce fr h hn.1) hn.2
    | detach a =>
      simp only [noReattach] at hn
      exact ih _ (detach_preserves_UniqueNr reg a h) hn

/-- After a successful open, release gives back the reference to the adapter
and the work queue. -/
theorem open_then_release (reg : Registry) (k : Kernel) (minor p : Nat) (d : I2cDev)
    (h : i2c_dev_get_by_minor reg minor = some (p, d)) :
    ∃ r, i2cnunchuck_open_initialize reg k minor true true true true true = some r ∧
      r.ret = 0 ∧
      (i2cnunchuck_release r.kernel d.adap.nr).adap_refs = k.adap_refs ∧
      (i2cnunchuck_release r.kernel d.adap.nr).workqueues = k.workqueues := by
  refine ⟨⟨0, ⟨Function.update k.adap_refs d.adap.nr (k.adap_refs d.adap.nr + 1),
    k.workqueues + 1⟩, some Client.fresh⟩,
    by simp [ i2cnunchuck_open_initialize, h], rfl, ?_, ?_⟩
  · funext n
    by_cases hn : n = d.adap.nr
    · subst hn; simp [i2cnunchuck_release]
    · simp [i2cnunchuck_release, Function.update, hn]
  · simp [i2cnunchuck_release]

/-! ## The claims on the registry and on open -/

/-- C6: for an adapter with the expected name whose number has no node yet
and whose registration succeeds (number below `I2C_MINORS`, `kzalloc`,
`device_create` and `device_create_file` all succeed), after
`i2cdev_attach_adapter` the lookup of its number finds a node that refers to
it, and after a following `i2cdev_detach_adapter` the lookup of its number
finds nothing. -/
theorem attach_lookup_detach (reg : Registry) (a : I2cAdapter)
    (hname : a.name = ADAPTER_NAME) (hnew : i2c_dev_get_by_minor reg a.nr = none)
    (hnr : a.nr < I2C_MINORS) :
    (i2cdev_attach_adapter reg a true none 0).1 = 0 ∧
    (∃ p d, i2c_dev_get_by_minor (i2cdev_attach_adapter reg a true none 0).2 a.nr
        = some (p, d) ∧ d.adap = a) ∧
    (i2cdev_detach_adapter (i2cdev_attach_adapter reg a true none 0).2 a).1 = 0 ∧
    i2c_dev_get_by_minor
      (i2cdev_detach_adapter (i2cdev_attach_adapter reg a true none 0).2 a).2 a.nr
        = none := by
  have hl := lookup_append_new reg ⟨a, some a.nr⟩ hnew
  rw [attach_success reg a hname hnr]
  refine ⟨rfl, ⟨reg.length, ⟨a, some a.nr⟩, hl, rfl⟩, ?_, ?_⟩
  · simp only [i2cdev_detach_adapter]
    simp only at hl
    rw [hl]
  · simp only [i2cdev_detach_adapter]
    simp only at hl
    rw [hl]
    simp only [erase_last]
    exact hnew

/-- Adapter 0 attached to the empty list, looked up and detached again. -/
theorem attach_lookup_detach_witness :
    (i2cdev_attach_adapter [] nunchuckAdapter true none 0).1 = 0 ∧
    (∃ p d, i2c_dev_get_by_minor (i2cdev_attach_adapter [] nunchuckAdapter true none 0).2
        nunchuckAdapter.nr = some (p, d) ∧ d.adap = nunchuckAdapter) ∧
    (i2cdev_detach_adapter (i2cdev_attach_adapter [] nunchuckAdapter true none 0).2
      nunchuckAdapter).1 = 0 ∧
    i2c_dev_get_by_minor
      (i2cdev_detach_adapter (i2cdev_attach_adapter [] nunchuckAdapter true none 0).2
        nunchuckAdapter).2 nunchuckAdapter.nr = none :=
  attach_lookup_detach [] nunchuckAdapter rfl rfl (by decide)

/-- C7, as the claim states it, fails: `get_free_i2c_dev` accepts an adapter
whose number already has a node, and attaching the same adapter twice leaves
two nodes with the same adapter number on the list. -/
theorem second_attach_adds_duplicate :
    regRun [] [.attach nunchuckAdapter true none 0] = [⟨nunchuckAdapter, some 0⟩] ∧
    get_free_i2c_dev [⟨nunchuckAdapter, some 0⟩] nunchuckAdapter true =
      .ok ([⟨nunchuckAdapter, some 0⟩, ⟨nunchuckAdapter, none⟩], 1) ∧
    i2cdev_attach_adapter [⟨nunchuckAdapter, some 0⟩] nunchuckAdapter true none 0 =
      (0, [⟨nunchuckAdapter, some 0⟩, ⟨nunchuckAdapter, some 0⟩]) ∧
    ¬ UniqueNr (regRun []
        [.attach nunchuckAdapter true none 0, .attach nunchuckAdapter true none 0]) := by
  refine ⟨by decide, rfl, by decide, by decide⟩

/-- C7, amended: `get_free_i2c_dev` rejects an adapter only when its number is
not below `I2C_MINORS` or the allocation fails, and otherwise appends a node
without looking for one with the same number; in every list reached from the
empty one by attach and detach notifications among which no adapter is
attached while its number has a node, there is at most one node per adapter
number. -/
theorem registry_unique_without_reattach (es : List RegEvent)
    (h : noReattach [] es = true) :
    UniqueNr (regRun [] es) ∧
    ∀ a : I2cAdapter, a.nr < I2C_MINORS →
      get_free_i2c_dev (regRun [] es) a true =
        .ok (regRun [] es ++ [⟨a, none⟩], (regRun [] es).length) := by
  refine ⟨regRun_preserves_UniqueNr es [] (by simp [UniqueNr]) h, fun a ha => ?_⟩
  have hm : ¬ a.nr ≥ I2C_MINORS := by omega
  simp [get_free_i2c_dev, hm]

/-- Attach, detach and attach again of adapter 0 keeps the numbers unique. -/
theorem registry_unique_without_reattach_witness :
    noReattach [] [.attach nunchuckAdapter true none 0, .detach nunchuckAdapter,
      .attach nunchuckAdapter true none 0] = true ∧
    UniqueNr (regRun [] [.attach nunchuckAdapter true none 0, .detach nunchuckAdapter,
      .attach nunchuckAdapter true none 0]) :=
  ⟨by decide,
   (registry_unique_without_reattach [.attach nunchuckAdapter true none 0,
      .detach nunchuckAdapter, .attach nunchuckAdapter true none 0] (by decide)).1⟩

/-- C8: the code does not release the session when the priming write of open
fails.  With adapter 0 registered, the adapter available and every allocation
successful, a failing priming write makes `i2cnunchuck_open_initialize` return
`-EFAULT` (-14) with the reference count of the adapter and the number of live
work queues both one higher than before the call. -/
theorem open_priming_failure_releases_nothing :
    (( i2cnunchuck_open_initialize [⟨nunchuckAdapter, some 0⟩] kernelIdle 0
        true true true true false).map
      (fun r => (r.ret, r.kernel.adap_refs 0, r.kernel.workqueues)))
      = some (-14, kernelIdle.adap_refs 0 + 1, kernelIdle.workqueues + 1) := by
  decide

end Nunchuck
